import Mathlib

/-!
Verification of the multi-source component reconciliation engine of the
`pdf-parser-api` repository.  The Python sources (`hybrid_compare.py`,
`excel_parser.py`) are shallowly embedded below: Python strings become
`String` (a structure over `List Char`), Python `None` becomes `Option`,
Python dictionaries become insertion-ordered association lists, and the
external fuzzy-similarity function (`fuzz.token_sort_ratio`) is abstracted
as an explicit parameter `sim : String → String → Nat`.
-/

namespace PdfParser

/-! ### Python string primitives

Models of the Python `str` operations used by the sources, restricted to the
ASCII behaviour those sources rely on: `str.upper`/`str.lower` (ASCII case
mapping), `str.strip` (the six ASCII whitespace characters), `str.replace`
(leftmost non-overlapping occurrences), the `in` substring test, and
`re.sub(r"\s+", " ", ·)` (collapse every whitespace run to one space). -/

def isWS (c : Char) : Bool :=
  c == ' ' || c == '\t' || c == '\n' || c == '\r' || c == '\x0b' || c == '\x0c'

def upChar (c : Char) : Char :=
  if 97 ≤ c.toNat ∧ c.toNat ≤ 122 then Char.ofNat (c.toNat - 32) else c

def lowChar (c : Char) : Char :=
  if 65 ≤ c.toNat ∧ c.toNat ≤ 90 then Char.ofNat (c.toNat + 32) else c

/-- Python `str.strip()` : drop whitespace from both ends. -/
def pystrip (l : List Char) : List Char :=
  ((l.dropWhile isWS).reverse.dropWhile isWS).reverse

def lstartsWith : List Char → List Char → Bool
  | [], _ => true
  | _ :: _, [] => false
  | p :: ps, c :: cs => p == c && lstartsWith ps cs

/-- Python substring test `pat in l` (contiguous occurrence). -/
def occursIn (pat : List Char) : List Char → Bool
  | [] => lstartsWith pat []
  | c :: t => lstartsWith pat (c :: t) || occursIn pat t

/-- Python `str.replace(pat, rep)` (non-empty `pat`), fuelled so that the
recursion is structural; `pyreplace` supplies enough fuel. -/
def pyreplaceF (pat rep : List Char) : Nat → List Char → List Char
  | _, [] => []
  | 0, l => l
  | fuel + 1, c :: t =>
    if lstartsWith pat (c :: t) then
      rep ++ pyreplaceF pat rep fuel (t.drop (pat.length - 1))
    else
      c :: pyreplaceF pat rep fuel t

def pyreplace (pat rep l : List Char) : List Char :=
  pyreplaceF pat rep l.length l

/-- Python `re.sub(r"\s+", " ", ·)` : every maximal run of whitespace
becomes a single space. -/
def squash : List Char → List Char
  | [] => []
  | [c] => if isWS c then [' '] else [c]
  | c :: d :: t =>
    if isWS c then
      if isWS d then squash (d :: t) else ' ' :: squash (d :: t)
    else
      c :: squash (d :: t)

/-- The head character, if any, is not whitespace. -/
def headNotWS : List Char → Bool
  | [] => true
  | d :: _ => !(isWS d)

/-- Whitespace-normal form: every whitespace character is a plain space
and is not followed by another whitespace character (the invariant
`squash` establishes). -/
def noWsRun : List Char → Bool
  | [] => true
  | c :: t => (!(isWS c) || (c == ' ' && headNotWS t)) && noWsRun t

def pystripS (s : String) : String := String.mk (pystrip s.data)

def pyupperS (s : String) : String := String.mk (s.data.map upChar)

def pylowerS (s : String) : String := String.mk (s.data.map lowChar)

/-- Python `sub in s`. -/
def inStr (sub s : String) : Bool := occursIn sub.data s.data

/-- Python truthiness of an optional string (`None` and `""` are falsy). -/
def truthyOpt : Option String → Bool
  | none => false
  | some s => s != ""

/-- Python `f"...{x}..."` interpolation of a possibly-`None` string. -/
def pyStr : Option String → String
  | none => "None"
  | some s => s

/-- Python list indexing (negative indices count from the end);
`none` models the raised `IndexError`. -/
def pyIdx {α : Type} (l : List α) (i : Int) : Option α :=
  if 0 ≤ i then l.get? i.toNat
  else
    let j : Int := (l.length : Int) + i
    if 0 ≤ j then l.get? j.toNat else none

def isDigitC (c : Char) : Bool := 48 ≤ c.toNat && c.toNat ≤ 57

def digitsVal : List Char → Option Nat
  | [] => none
  | l =>
    if l.all isDigitC then
      some (l.foldl (fun acc c => acc * 10 + (c.toNat - 48)) 0)
    else none

/-- Python `int(s)` on a string: optional sign, decimal digits, surrounding
whitespace allowed; `none` models the raised `ValueError`. -/
def pyInt (s : String) : Option Int :=
  match pystrip s.data with
  | '-' :: rest => (digitsVal rest).map (fun n => -(n : Int))
  | '+' :: rest => (digitsVal rest).map (fun n => (n : Int))
  | t => (digitsVal t).map (fun n => (n : Int))

/-! ### `hybrid_compare.py` -/

/-- The `MATERIAL_SYNONYMS` from `hybrid_compare.py` (insertion order kept). -/
def MATERIAL_SYNONYMS : List (String × List String) :=
  [ ("GRAPHITE", ["GRAPHITE", "GRAF", "GR"]),
    ("SS316", ["SS 316", "SS GR 316", "S316", "S316/L", "S316L",
               "STAINLESS STEEL GR 316", "F316", "F316L", "F316/L", "F316/F316L"]),
    ("SS304", ["SS 304", "SS GR 304", "S304", "S304/L"]),
    ("LF2", ["LF2", "LF2W62", "A350 LF2", "ASTM A350 LF2"]),
    ("L7M", ["L7M", "L7MHDG", "L7M+HDG", "L7M HDG", "A320 L7M", "ASTM A320 L7M"]),
    ("XM19", ["XM19", "XM19HR", "XM-19", "A479 XM19", "S20910", "A479 S20910"]),
    ("A182F316", ["A182 F316", "A182 F316L", "A182 F316/F316L", "ASTM A182 F316"]),
    ("SSBPTFE", ["SS GR 316 + PTFE", "SSBPTFE", "SS + PTFE", "SS GR316 + PTFE"]),
    ("SSGRAF", ["SS GR 316 + GRAPHITE", "SSGRAF", "SS + GRAPHITE", "SS GR316 + GRAPHITE"]),
    ("SOFTIRON", ["SOFT IRON", "SOFTIRON"]),
    ("PEEK", ["PEEK"]),
    ("ELGILOY", ["ELGILOY"]) ]

/-- The normalisation pipeline of `normalize` on the character list:
uppercase + strip, slashes and hyphens to spaces, drop the dot of
`GR.`/`CL.`, delete `ASTM `/`ASME `, collapse whitespace runs, strip. -/
def normStages (l : List Char) : List Char :=
  let t0 := pystrip (l.map upChar)
  let t1 := pyreplace ['/'] [' '] t0
  let t2 := pyreplace ['-'] [' '] t1
  let t3 := pyreplace "GR.".data "GR".data t2
  let t4 := pyreplace "CL.".data "CL".data t3
  let t5 := pyreplace "ASTM ".data [] t4
  let t6 := pyreplace "ASME ".data [] t5
  pystrip (squash t6)

/-- The `normalize` from `hybrid_compare.py`. -/
def normalize (text : String) : String :=
  if text = "" then "" else String.mk (normStages text.data)

/-- The `check_synonyms` from `hybrid_compare.py`. -/
def check_synonyms (mat1 mat2 : String) : Bool :=
  let norm1 := normalize mat1
  let norm2 := normalize mat2
  MATERIAL_SYNONYMS.any fun p =>
    let ns := p.2.map normalize
    ns.contains norm1 && ns.contains norm2

/-- A character matched by the token regex `[A-Z0-9]+`. -/
def isTokChar (c : Char) : Bool :=
  (65 ≤ c.toNat && c.toNat ≤ 90) || (48 ≤ c.toNat && c.toNat ≤ 57)

/-- Maximal runs of `isTokChar` characters (the `re.findall` result),
accumulator-passing so the recursion is structural. -/
def runsAux (acc : List Char) : List Char → List (List Char)
  | [] => if acc.isEmpty then [] else [acc.reverse]
  | c :: t =>
    if isTokChar c then runsAux (c :: acc) t
    else if acc.isEmpty then runsAux [] t
    else acc.reverse :: runsAux [] t

def alnumRuns (l : List Char) : List (List Char) := runsAux [] l

/-- The `extract_tokens` from `hybrid_compare.py` (token multiset as a list;
only membership matters downstream). -/
def extract_tokens (text : String) : List String :=
  if text = "" then []
  else
    let toks := alnumRuns (normalize text).data
    (toks.filter fun tk =>
        (tk.any isDigitC && decide (2 ≤ tk.length)) || decide (3 ≤ tk.length)).map
      String.mk

/-- The `check_tokens` from `hybrid_compare.py`. -/
def check_tokens (mat1 mat2 : String) : Bool :=
  (extract_tokens mat1).any fun t => (extract_tokens mat2).contains t

/-- The `smart_material_match` from `hybrid_compare.py`. -/
def smart_material_match (material1 material2 : String) : Bool × String :=
  if material1 = "" ∨ material2 = "" then (false, "empty")
  else if normalize material1 = normalize material2 then (true, "exact")
  else if check_synonyms material1 material2 then (true, "synonym")
  else if check_tokens material1 material2 then (true, "token")
  else (false, "none")

/-- The `compare_materials` from `hybrid_compare.py`. -/
def compare_materials (material1 material2 : String) : Bool :=
  (smart_material_match material1 material2).1

/-! ### Embedding of excel_parser.py — components ("BOM") sheet

Workbooks are embedded as data already read from disk: a sheet carries the
three gating cells (`D28`, `O28`, `Y28`) and the projection of rows 31–100
onto the cells the scanner reads (`F`, `AC`, `AQ`), plus the
`len(row) <= 42` width guard as a Boolean. -/

structure BomComp where
  quantity : Int
  material : String
  deriving DecidableEq, Repr

/-- One scanned row of the components sheet: `short` models
`len(row) <= 42`, `name` is column `AC`, `qty` column `AQ`,
`material` column `F` (cells as optional strings, `none` = empty cell). -/
structure BomRow where
  short : Bool
  name : Option String
  qty : Option String
  material : Option String
  deriving Repr

structure BomSheet where
  size : Option String
  asme : Option String
  ends : Option String
  rows : List BomRow
  deriving Repr

structure BomSheetData where
  size : Option String
  asme : Option String
  ends : Option String
  components : List (String × BomComp)
  deriving DecidableEq, Repr

/-- State of the row scanner: the components dictionary built so far
(insertion-ordered association list) and the `last_component_name`
cursor. -/
structure BomScan where
  components : List (String × BomComp)
  last : Option String
  deriving DecidableEq, Repr

/-- Python dict insert/overwrite `d[k] = v` (keeps the key's position). -/
def dictSet : List (String × BomComp) → String → BomComp → List (String × BomComp)
  | [], k, v => [(k, v)]
  | (k', v') :: t, k, v =>
    if k' = k then (k, v) :: t else (k', v') :: dictSet t k v

/-- The `components[k]["material"] = m` (no change when `k` is absent). -/
def dictSetMat : List (String × BomComp) → String → String → List (String × BomComp)
  | [], _, _ => []
  | (k', v') :: t, k, m =>
    if k' = k then (k', { v' with material := m }) :: t
    else (k', v') :: dictSetMat t k m

def dictLookup (d : List (String × BomComp)) (k : String) : Option BomComp :=
  match d.find? (fun p => p.1 == k) with
  | some p => some p.2
  | none => none

/-- The `int(quantity) if quantity else 1` under `try/except → 1`. -/
def parseQty : Option String → Int
  | none => 1
  | some s =>
    if s = "" then 1
    else match pyInt s with
      | some n => n
      | none => 1

/-- Loop body of the row scan in `parse_bom_sheet` (`excel_parser.py`
lines 45–85): a row with a non-empty name records a new component (the
repeated header row is skipped); a row with an empty name but non-empty
material overwrites the material of the `last` recorded component. -/
def bomStep (st : BomScan) (r : BomRow) : BomScan :=
  if r.short then st
  else if truthyOpt r.name && (pystripS (r.name.getD "") != "") then
    let nm := pystripS (r.name.getD "")
    if nm = "Descrizione componente" then st
    else
      let qty := parseQty r.qty
      let mat := if truthyOpt r.material then pystripS (r.material.getD "") else ""
      { components := dictSet st.components nm ⟨qty, mat⟩, last := some nm }
  else if truthyOpt r.material && (pystripS (r.material.getD "") != "") &&
      truthyOpt st.last then
    match st.last with
    | some ln =>
      if (dictLookup st.components ln).isSome then
        { st with components := dictSetMat st.components ln (pystripS (r.material.getD "")) }
      else st
    | none => st
  else st

/-- The `str(x).strip() if x else None` applied to a gating cell. -/
def cellNorm : Option String → Option String
  | none => none
  | some s => if s ≠ "" then some (pystripS s) else none

/-- Models the Python `IndexError` escaping `parse_bom_sheet` when
`wb.worksheets[sheet_index]` is out of range — the condition the spec's
error taxonomy names `ExtractionError`. -/
inductive ExtractionError where
  | sheetIndexOutOfRange (idx : Int)
  deriving DecidableEq, Repr

/-- The `parse_bom_sheet` from `excel_parser.py` (workbook already read;
sheet selection by Python list indexing). -/
def parse_bom_sheet (wb : List BomSheet) (sheet_index : Int) :
    Except ExtractionError BomSheetData :=
  match pyIdx wb sheet_index with
  | none => .error (.sheetIndexOutOfRange sheet_index)
  | some ws =>
    .ok { size := cellNorm ws.size
          asme := cellNorm ws.asme
          ends := cellNorm ws.ends
          components := (ws.rows.foldl bomStep ⟨[], none⟩).components }

/-! ### `excel_parser.py` — validation gate -/

structure ValidationResult where
  valid : Bool
  errors : List String
  deriving DecidableEq, Repr

/-- Quote stripping used for SIZE fields:
`.replace('"', "").replace("'", "")`. -/
def stripQuotes (s : String) : String :=
  String.mk (pyreplace ['\''] [] (pyreplace ['"'] [] s.data))

/-- The `x.replace('"', "").replace("'", "").strip() if x else ""` — the
normalisation applied to SIZE fields (null→`""`, quote characters
stripped, whitespace trimmed). -/
def quoteNorm : Option String → String
  | none => ""
  | some s => pystripS (stripQuotes s)

/-- The `x.strip() if x else ""` — the normalisation applied to ASME and ENDS
fields (null→`""`, whitespace trimmed, quotes kept). -/
def trimNorm : Option String → String
  | none => ""
  | some s => pystripS s

/-- The `validate_bom_with_pdf` from `excel_parser.py`: SIZE is compared after
quote-stripping and trimming, ASME and ENDS after trimming only; each
field passes on bidirectional substring containment, each failing field
appends one message. -/
def validate_bom_with_pdf (bom_data : BomSheetData)
    (pdf_size pdf_asme pdf_ends : Option String) : ValidationResult :=
  let bom_size := quoteNorm bom_data.size
  let pdf_size_clean := quoteNorm pdf_size
  let bom_asme := trimNorm bom_data.asme
  let pdf_asme_clean := trimNorm pdf_asme
  let bom_ends := trimNorm bom_data.ends
  let pdf_ends_clean := trimNorm pdf_ends
  let errors :=
    (if !(inStr bom_size pdf_size_clean) && !(inStr pdf_size_clean bom_size) then
        ["SIZE не совпадает: BOM=" ++ pyStr bom_data.size ++ ", PDF=" ++ pyStr pdf_size]
      else []) ++
    (if !(inStr bom_asme pdf_asme_clean) && !(inStr pdf_asme_clean bom_asme) then
        ["ASME не совпадает: BOM=" ++ pyStr bom_data.asme ++ ", PDF=" ++ pyStr pdf_asme]
      else []) ++
    (if !(inStr bom_ends pdf_ends_clean) && !(inStr pdf_ends_clean bom_ends) then
        ["ENDS не совпадает: BOM=" ++ pyStr bom_data.ends ++ ", PDF=" ++ pyStr pdf_ends]
      else [])
  { valid := errors.isEmpty, errors := errors }

/-! ### `excel_parser.py` — manager sheet -/

/-- The `component_columns` from `parse_manager_sheet` (column 18–30). -/
def component_columns : List (Nat × String) :=
  [ (18, "Body"), (19, "Closures"), (20, "Gland"), (21, "Trunnion"),
    (22, "Weld overlay"), (23, "Ball"), (24, "Seat rings"), (25, "Seat inserts"),
    (26, "Stem"), (27, "Dynamic seals"), (28, "Static seals"),
    (29, "Fire Safe gaskets"), (30, "Springs") ]

/-- Result of a manager-sheet search: a first-class value, not an
exception (`notFound` carries the formatted error message). -/
inductive MResult where
  | found (row : Nat) (size asme : String) (materials : List (String × String))
  | notFound (error : String)
  deriving DecidableEq, Repr

def MResult.isFound : MResult → Bool
  | .found _ _ _ _ => true
  | .notFound _ => false

/-- Materials extraction from the matched row (skip empty cells). -/
def rowMaterials (row : List (Option String)) : List (String × String) :=
  component_columns.filterMap fun p =>
    match row.getD (p.1 - 1) none with
    | some m => if (m != "") && (pystripS m != "") then some (p.2, pystripS m) else none
    | none => none

/-- Normalised size cell of a manager row. -/
def mgrSizeStr (cell : Option String) : String :=
  match cell with
  | some s => pystripS (stripQuotes s)
  | none => ""

def mgrClsStr (cell : Option String) : String :=
  match cell with
  | some s => pystripS s
  | none => ""

/-- The row-acceptance test of `parse_manager_sheet`: row wide enough, both
cells truthy, and the normalised targets substrings of the normalised
cells. -/
def mgrRowHit (tsc tac : String) (row : List (Option String)) : Bool :=
  decide (30 ≤ row.length) &&
  truthyOpt (row.getD 8 none) && truthyOpt (row.getD 9 none) &&
  inStr tsc (mgrSizeStr (row.getD 8 none)) &&
  inStr tac (mgrClsStr (row.getD 9 none))

def managerScan (tsc tac : String) :
    List (List (Option String)) → Nat → Option (Nat × List (Option String))
  | [], _ => none
  | row :: rest, idx =>
    if mgrRowHit tsc tac row then some (idx, row)
    else managerScan tsc tac rest (idx + 1)

/-- The `target_size_clean` of `parse_manager_sheet`. -/
def targetSizeClean : Option String → String
  | some s => pystripS (stripQuotes s)
  | none => ""

/-- The `target_asme_clean` of `parse_manager_sheet`. -/
def targetClsClean : Option String → String
  | some s => pystripS s
  | none => ""

/-- The `parse_manager_sheet` from `excel_parser.py`; `rows` is the scanned
window (worksheet rows 15–99) of the first sheet. -/
def parse_manager_sheet (rows : List (List (Option String)))
    (target_size target_asme : Option String) : MResult :=
  let tsc := targetSizeClean target_size
  let tac := targetClsClean target_asme
  match managerScan tsc tac rows 15 with
  | some (idx, row) =>
    .found idx (mgrSizeStr (row.getD 8 none)) (mgrClsStr (row.getD 9 none))
      (rowMaterials row)
  | none =>
    .notFound ("Не найдена строка с Size=" ++ pyStr target_size ++
      " и Class=" ++ pyStr target_asme)


/-! ### `excel_parser.py` — reconciliation merge

`merge_all_data` and `find_matching_manager_column`, with the external
similarity function `fuzz.token_sort_ratio` abstracted as a parameter
`sim : String → String → Nat` (scores in `0–100`).  A drawing-table item
is a dictionary; optional fields model absent keys. -/

structure Item where
  pos : Option String
  description : Option String
  material : Option String
  bom_material : Option String
  order_material : Option String
  quantity : Option Int
  manager_quantity : Option Int
  status : Option String
  note : Option String
  deriving DecidableEq, Repr

structure PdfData where
  table2 : List Item
  deriving DecidableEq, Repr

/-- The `find_matching_manager_column` from `excel_parser.py`: first an exact
case-insensitive hit, otherwise the best fuzzy score that is strictly
larger than the running best and at least 80 (first maximum wins). -/
def find_matching_manager_column (sim : String → String → Nat)
    (pdf_description : String) (manager_materials : List (String × String)) :
    Option String × Option String :=
  let pdf_lower := pystripS (pylowerS pdf_description)
  match manager_materials.find? (fun p => pdf_lower == pylowerS p.1) with
  | some p => (some p.1, some p.2)
  | none =>
    let best := manager_materials.foldl
      (fun (acc : Option (String × String) × Nat) p =>
        let score := sim pdf_lower (pylowerS p.1)
        if acc.2 < score ∧ 80 ≤ score then (some p, score) else acc)
      (none, 0)
    match best.1 with
    | some p => (some p.1, some p.2)
    | none => (none, none)

/-- The best-scoring components-sheet entry for a drawing description
(threshold 70, strictly increasing best, first maximum wins) — the ШАГ 1
loop of `merge_all_data`. -/
def bestBom (sim : String → String → Nat) (description : String)
    (bom_components : List (String × BomComp)) : Option BomComp :=
  (bom_components.foldl
    (fun (acc : Option BomComp × Nat) p =>
      let score := sim (pylowerS description) (pylowerS p.1)
      if acc.2 < score ∧ 70 ≤ score then (some p.2, score) else acc)
    (none, 0)).1

/-- The `item.get("description", "").strip()`. -/
def descOf (it : Item) : String := pystripS (it.description.getD "")

def pdfMaterialOf (it : Item) : String := pystripS (it.material.getD "")

def bomMaterialOf (sim : String → String → Nat)
    (bom : List (String × BomComp)) (it : Item) : String :=
  match bestBom sim (descOf it) bom with
  | some c => c.material
  | none => ""

def bomQuantityOf (sim : String → String → Nat)
    (bom : List (String × BomComp)) (it : Item) : Option Int :=
  match bestBom sim (descOf it) bom with
  | some c => some c.quantity
  | none => none

/-- The `bom_materials_match` (ШАГ 2): both materials present and the smart
comparison succeeds. -/
def bomMatchOf (sim : String → String → Nat)
    (bom : List (String × BomComp)) (it : Item) : Bool :=
  (pdfMaterialOf it != "") && (bomMaterialOf sim bom it != "") &&
    (smart_material_match (pdfMaterialOf it) (bomMaterialOf sim bom it)).1

def orderColumnOf (sim : String → String → Nat)
    (mgr : List (String × String)) (it : Item) : Option String :=
  (find_matching_manager_column sim (descOf it) mgr).1

def orderMaterialRawOf (sim : String → String → Nat)
    (mgr : List (String × String)) (it : Item) : Option String :=
  (find_matching_manager_column sim (descOf it) mgr).2

/-- The `order_materials_match` (ШАГ 4). -/
def orderMatchOf (sim : String → String → Nat)
    (mgr : List (String × String)) (it : Item) : Bool :=
  (pdfMaterialOf it != "") && truthyOpt (orderMaterialRawOf sim mgr it) &&
    (smart_material_match (pdfMaterialOf it) ((orderMaterialRawOf sim mgr it).getD "")).1

/-- The per-item mutation of `merge_all_data` (ШАГ 1–6); items whose
stripped description is empty are skipped unchanged. -/
def processItem (sim : String → String → Nat) (bom : List (String × BomComp))
    (mgr : List (String × String)) (it : Item) : Item :=
  if descOf it = "" then it
  else
    let bom_material := bomMaterialOf sim bom it
    let bmm := bomMatchOf sim bom it
    let omm := orderMatchOf sim mgr it
    let manager_material := orderMaterialRawOf sim mgr it
    let status :=
      if bmm || omm then "equal"
      else if ((bom_material != "") || truthyOpt manager_material) && !(bmm || omm) then
        "notEqual"
      else "equal"
    { it with
        material := some (pdfMaterialOf it)
        bom_material := if bom_material != "" then some bom_material else none
        order_material := if truthyOpt manager_material then manager_material else none
        quantity := bomQuantityOf sim bom it
        manager_quantity := none
        status := some status
        note := match it.note with
          | none => some ""
          | some n => some n }

/-- The manager column an item marks as used (`used_manager_columns.add`):
only for processed items and only when the column is truthy. -/
def usedColOf (sim : String → String → Nat) (mgr : List (String × String))
    (it : Item) : Option String :=
  if descOf it = "" then none
  else match orderColumnOf sim mgr it with
    | some c => if c ≠ "" then some c else none
    | none => none

/-- The record appended for an unmatched manager category (ШАГ 7). -/
def newItemOf (p : String × String) : Item :=
  { pos := some ""
    description := some p.1
    material := some p.2
    bom_material := none
    order_material := some p.2
    quantity := none
    manager_quantity := none
    status := some "new"
    note := some "" }

/-- The `merge_all_data` from `excel_parser.py`. -/
def merge_all_data (sim : String → String → Nat) (pdf_data : PdfData)
    (bom_components : List (String × BomComp))
    (manager_materials : List (String × String)) : PdfData :=
  let processed := pdf_data.table2.map (processItem sim bom_components manager_materials)
  let used := pdf_data.table2.filterMap (usedColOf sim manager_materials)
  let newItems :=
    (manager_materials.filter (fun p => !(used.contains p.1))).map newItemOf
  { pdf_data with table2 := processed ++ newItems }

/-! ## General lemmas about the embedded operations -/

theorem pyreplaceF_not_occurs (pat rep : List Char) :
    ∀ (fuel : Nat) (l : List Char), l.length ≤ fuel →
      occursIn pat l = false → pyreplaceF pat rep fuel l = l := by
  intro fuel
  induction fuel with
  | zero =>
    intro l hl _
    rw [List.length_eq_zero.mp (Nat.le_zero.mp hl)]
    rfl
  | succ n ih =>
    intro l hl ho
    cases l with
    | nil => rfl
    | cons c t =>
      simp only [occursIn, Bool.or_eq_false_iff] at ho
      simp only [pyreplaceF]
      rw [if_neg (by rw [ho.1]; exact Bool.false_ne_true)]
      rw [ih t (by simpa using Nat.succ_le_succ_iff.mp hl) ho.2]

theorem pyreplace_not_occurs (pat rep l : List Char)
    (h : occursIn pat l = false) : pyreplace pat rep l = l :=
  pyreplaceF_not_occurs pat rep l.length l (Nat.le_refl _) h

theorem mem_pyreplaceF (pat rep : List Char) :
    ∀ (fuel : Nat) (l : List Char) (c : Char),
      c ∈ pyreplaceF pat rep fuel l → c ∈ l ∨ c ∈ rep := by
  intro fuel
  induction fuel with
  | zero =>
    intro l c h
    cases l with
    | nil => exact absurd h (List.not_mem_nil c)
    | cons a t => exact Or.inl h
  | succ n ih =>
    intro l c h
    cases l with
    | nil => exact absurd h (List.not_mem_nil c)
    | cons a t =>
      simp only [pyreplaceF] at h
      by_cases hs : lstartsWith pat (a :: t) = true
      · rw [if_pos hs] at h
        rcases List.mem_append.mp h with h' | h'
        · exact Or.inr h'
        · rcases ih _ c h' with h'' | h''
          · exact Or.inl (List.mem_cons_of_mem a (List.drop_subset _ _ h''))
          · exact Or.inr h''
      · rw [if_neg hs] at h
        rcases List.mem_cons.mp h with h' | h'
        · exact Or.inl (h' ▸ List.mem_cons_self a t)
        · rcases ih t c h' with h'' | h''
          · exact Or.inl (List.mem_cons_of_mem a h'')
          · exact Or.inr h''

theorem mem_pyreplace (pat rep l : List Char) (c : Char)
    (h : c ∈ pyreplace pat rep l) : c ∈ l ∨ c ∈ rep :=
  mem_pyreplaceF pat rep l.length l c h

theorem not_mem_pyreplaceF_single (a : Char) (rep : List Char) (ha : a ∉ rep) :
    ∀ (fuel : Nat) (l : List Char), l.length ≤ fuel →
      a ∉ pyreplaceF [a] rep fuel l := by
  intro fuel
  induction fuel with
  | zero =>
    intro l hl h
    rw [List.length_eq_zero.mp (Nat.le_zero.mp hl)] at h
    exact absurd h (List.not_mem_nil a)
  | succ n ih =>
    intro l hl h
    cases l with
    | nil => exact absurd h (List.not_mem_nil a)
    | cons c t =>
      simp only [pyreplaceF] at h
      by_cases hac : a = c
      · subst hac
        rw [if_pos (by simp [lstartsWith])] at h
        rcases List.mem_append.mp h with h' | h'
        · exact ha h'
        · exact ih t (by simpa using Nat.succ_le_succ_iff.mp hl) (by simpa using h')
      · rw [if_neg (by simp [lstartsWith, hac])] at h
        rcases List.mem_cons.mp h with h' | h'
        · exact hac h'
        · exact ih t (by simpa using Nat.succ_le_succ_iff.mp hl) h'

theorem not_mem_pyreplace_single (a : Char) (rep l : List Char) (ha : a ∉ rep) :
    a ∉ pyreplace [a] rep l :=
  not_mem_pyreplaceF_single a rep ha l.length l (Nat.le_refl _)

theorem not_occurs_single (a : Char) :
    ∀ l : List Char, a ∉ l → occursIn [a] l = false := by
  intro l
  induction l with
  | nil => intro _; rfl
  | cons c t ih =>
    intro h
    simp only [occursIn, Bool.or_eq_false_iff]
    constructor
    · have hne : a ≠ c := fun he => h (he ▸ List.mem_cons_self c t)
      simp [lstartsWith, hne]
    · exact ih fun hm => h (List.mem_cons_of_mem c hm)

theorem headNotWS_dropWhile (l : List Char) :
    headNotWS (l.dropWhile isWS) = true := by
  induction l with
  | nil => rfl
  | cons c t ih =>
    cases hw : isWS c
    · rw [List.dropWhile_cons_of_neg (by simp [hw])]
      simp [headNotWS, hw]
    · rw [List.dropWhile_cons_of_pos (by simp [hw])]
      exact ih

theorem dropWhile_of_headNotWS {l : List Char} (h : headNotWS l = true) :
    l.dropWhile isWS = l := by
  cases l with
  | nil => rfl
  | cons c t =>
    simp only [headNotWS, Bool.not_eq_true'] at h
    rw [List.dropWhile_cons_of_neg (by simp [h])]

theorem rstrip_pre (l : List Char) :
    (l.reverse.dropWhile isWS).reverse <+: l := by
  have h2 := List.reverse_prefix.mpr (List.dropWhile_suffix (l := l.reverse) isWS)
  rwa [List.reverse_reverse] at h2

theorem headNotWS_pre {l₁ l₂ : List Char} (h : l₁ <+: l₂)
    (h2 : headNotWS l₂ = true) : headNotWS l₁ = true := by
  cases l₁ with
  | nil => rfl
  | cons c t =>
    obtain ⟨s, hs⟩ := h
    rw [← hs] at h2
    exact h2

theorem headNotWS_pystrip (l : List Char) : headNotWS (pystrip l) = true :=
  headNotWS_pre (rstrip_pre (l.dropWhile isWS)) (headNotWS_dropWhile l)

theorem dropWhile_pystrip (l : List Char) :
    (pystrip l).dropWhile isWS = pystrip l :=
  dropWhile_of_headNotWS (headNotWS_pystrip l)

theorem pystrip_idem (l : List Char) : pystrip (pystrip l) = pystrip l := by
  show (((pystrip l).dropWhile isWS).reverse.dropWhile isWS).reverse = pystrip l
  rw [dropWhile_pystrip]
  show ((((l.dropWhile isWS).reverse.dropWhile isWS).reverse).reverse.dropWhile
    isWS).reverse = pystrip l
  rw [List.reverse_reverse, dropWhile_of_headNotWS (headNotWS_dropWhile _)]
  rfl

theorem mem_pystrip {l : List Char} {c : Char} (h : c ∈ pystrip l) : c ∈ l := by
  unfold pystrip at h
  rw [List.mem_reverse] at h
  have h2 := (List.dropWhile_sublist (l := (l.dropWhile isWS).reverse) isWS).subset h
  rw [List.mem_reverse] at h2
  exact (List.dropWhile_sublist isWS).subset h2

theorem noWsRun_cons (c : Char) (t : List Char) :
    noWsRun (c :: t) =
      ((!(isWS c) || (c == ' ' && headNotWS t)) && noWsRun t) := rfl

theorem noWsRun_tail {c : Char} {t : List Char} (h : noWsRun (c :: t) = true) :
    noWsRun t = true := by
  rw [noWsRun_cons, Bool.and_eq_true] at h
  exact h.2

theorem noWsRun_suffix :
    ∀ {l₂ l₁ : List Char}, l₁ <:+ l₂ → noWsRun l₂ = true → noWsRun l₁ = true := by
  intro l₂
  induction l₂ with
  | nil =>
    intro l₁ h _
    rw [List.suffix_nil.mp h]
    rfl
  | cons c t ih =>
    intro l₁ h hw
    rcases List.suffix_cons_iff.mp h with h' | h'
    · rw [h']; exact hw
    · exact ih h' (noWsRun_tail hw)

theorem noWsRun_pre :
    ∀ {l₁ l₂ : List Char}, l₁ <+: l₂ → noWsRun l₂ = true → noWsRun l₁ = true := by
  intro l₁
  induction l₁ with
  | nil => intro _ _ _; rfl
  | cons c t ih =>
    intro l₂ h hw
    obtain ⟨s, hs⟩ := h
    subst hs
    rw [List.cons_append] at hw
    rw [noWsRun_cons, Bool.and_eq_true] at hw ⊢
    obtain ⟨hw1, hw2⟩ := hw
    refine ⟨?_, ih ⟨s, rfl⟩ hw2⟩
    cases t with
    | nil =>
      rcases Bool.or_eq_true_iff.mp hw1 with h1 | h1
      · rw [Bool.or_eq_true_iff]; exact Or.inl h1
      · rw [Bool.and_eq_true] at h1
        rw [Bool.or_eq_true_iff]
        exact Or.inr (by rw [Bool.and_eq_true]; exact ⟨h1.1, rfl⟩)
    | cons d t' => exact hw1

theorem squash_cons_not_ws {d : Char} (hd : isWS d = false) (t : List Char) :
    squash (d :: t) = d :: squash t := by
  cases t with
  | nil => simp [squash, hd]
  | cons e t' => simp [squash, hd]

theorem mem_squash : ∀ (l : List Char) (c : Char), c ∈ squash l → c ∈ l ∨ c = ' '
  | [] => by
    intro c h
    exact absurd h (List.not_mem_nil c)
  | [d] => by
    intro c h
    cases hw : isWS d
    · rw [show squash [d] = [d] by simp [squash, hw]] at h
      exact Or.inl h
    · rw [show squash [d] = [' '] by simp [squash, hw]] at h
      exact Or.inr (by simpa using h)
  | a :: b :: t => by
    intro c h
    cases hwa : isWS a
    · rw [show squash (a :: b :: t) = a :: squash (b :: t) by
          simp [squash, hwa]] at h
      rcases List.mem_cons.mp h with h' | h'
      · exact Or.inl (h' ▸ List.mem_cons_self a (b :: t))
      · rcases mem_squash (b :: t) c h' with h'' | h''
        · exact Or.inl (List.mem_cons_of_mem a h'')
        · exact Or.inr h''
    · cases hwb : isWS b
      · rw [show squash (a :: b :: t) = ' ' :: squash (b :: t) by
            simp [squash, hwa, hwb]] at h
        rcases List.mem_cons.mp h with h' | h'
        · exact Or.inr h'
        · rcases mem_squash (b :: t) c h' with h'' | h''
          · exact Or.inl (List.mem_cons_of_mem a h'')
          · exact Or.inr h''
      · rw [show squash (a :: b :: t) = squash (b :: t) by
            simp [squash, hwa, hwb]] at h
        rcases mem_squash (b :: t) c h with h'' | h''
        · exact Or.inl (List.mem_cons_of_mem a h'')
        · exact Or.inr h''

theorem headNotWS_squash {d : Char} (hd : isWS d = false) (t : List Char) :
    headNotWS (squash (d :: t)) = true := by
  rw [squash_cons_not_ws hd]
  simp [headNotWS, hd]

theorem noWsRun_squash : ∀ l : List Char, noWsRun (squash l) = true
  | [] => rfl
  | [c] => by
    cases hw : isWS c
    · rw [show squash [c] = [c] by simp [squash, hw]]
      simp [noWsRun, headNotWS, hw]
    · rw [show squash [c] = [' '] by simp [squash, hw]]
      decide
  | a :: b :: t => by
    cases hwa : isWS a
    · rw [show squash (a :: b :: t) = a :: squash (b :: t) by simp [squash, hwa]]
      rw [noWsRun_cons, Bool.and_eq_true]
      exact ⟨by simp [hwa], noWsRun_squash (b :: t)⟩
    · cases hwb : isWS b
      · rw [show squash (a :: b :: t) = ' ' :: squash (b :: t) by
            simp [squash, hwa, hwb]]
        rw [noWsRun_cons, Bool.and_eq_true]
        refine ⟨?_, noWsRun_squash (b :: t)⟩
        rw [Bool.or_eq_true_iff]
        refine Or.inr ?_
        rw [Bool.and_eq_true]
        exact ⟨by decide, headNotWS_squash hwb t⟩
      · rw [show squash (a :: b :: t) = squash (b :: t) by simp [squash, hwa, hwb]]
        exact noWsRun_squash (b :: t)

theorem squash_id : ∀ l : List Char, noWsRun l = true → squash l = l
  | [] => fun _ => rfl
  | [c] => by
    intro h
    cases hw : isWS c
    · simp [squash, hw]
    · rw [noWsRun_cons, Bool.and_eq_true] at h
      obtain ⟨h1, _⟩ := h
      rw [Bool.or_eq_true_iff] at h1
      rcases h1 with h1 | h1
      · rw [hw] at h1
        exact absurd h1 (by simp)
      · rw [Bool.and_eq_true] at h1
        have hc : c = ' ' := by simpa using h1.1
        subst hc
        simp [squash]
  | a :: b :: t => by
    intro h
    rw [noWsRun_cons, Bool.and_eq_true] at h
    obtain ⟨h1, h2⟩ := h
    cases hwa : isWS a
    · rw [show squash (a :: b :: t) = a :: squash (b :: t) by simp [squash, hwa]]
      rw [squash_id (b :: t) h2]
    · rw [Bool.or_eq_true_iff] at h1
      rcases h1 with h1 | h1
      · rw [hwa] at h1
        exact absurd h1 (by simp)
      · rw [Bool.and_eq_true] at h1
        have ha : a = ' ' := by simpa using h1.1
        have hb : isWS b = false := by simpa [headNotWS] using h1.2
        rw [show squash (a :: b :: t) = ' ' :: squash (b :: t) by
            simp [squash, hwa, hb]]
        rw [squash_id (b :: t) h2, ha]

theorem noWsRun_pystrip (l : List Char) (h : noWsRun l = true) :
    noWsRun (pystrip l) = true :=
  noWsRun_pre (rstrip_pre (l.dropWhile isWS))
    (noWsRun_suffix (List.dropWhile_suffix isWS) h)

theorem toNat_ofNat_lt (n : Nat) (h : n < 55296) : (Char.ofNat n).toNat = n := by
  rw [Char.ofNat, dif_pos (Or.inl h)]
  rfl

theorem upChar_not_lower (c : Char) :
    (upChar c).toNat < 97 ∨ 122 < (upChar c).toNat := by
  unfold upChar
  split
  · rename_i h
    rw [toNat_ofNat_lt _ (by omega)]
    omega
  · rename_i h
    rcases Nat.lt_or_ge c.toNat 97 with h1 | h1
    · exact Or.inl h1
    · exact Or.inr (Nat.lt_of_not_le fun hle => h ⟨h1, hle⟩)

theorem upChar_eq_self {c : Char} (h : c.toNat < 97 ∨ 122 < c.toNat) :
    upChar c = c := by
  unfold upChar
  rcases h with h | h
  · rw [if_neg (by omega)]
  · rw [if_neg (by omega)]

theorem map_upChar_id :
    ∀ l : List Char, (∀ c ∈ l, c.toNat < 97 ∨ 122 < c.toNat) →
      l.map upChar = l := by
  intro l h
  induction l with
  | nil => rfl
  | cons c t ih =>
    rw [List.map_cons, upChar_eq_self (h c (List.mem_cons_self c t)),
      ih fun d hd => h d (List.mem_cons_of_mem c hd)]

theorem normStages_no_slash (l : List Char) : '/' ∉ normStages l := by
  intro h
  simp only [normStages] at h
  rcases mem_squash _ _ (mem_pystrip h) with h2 | h2
  · rcases mem_pyreplace _ _ _ _ h2 with h3 | h3
    · rcases mem_pyreplace _ _ _ _ h3 with h4 | h4
      · rcases mem_pyreplace _ _ _ _ h4 with h5 | h5
        · rcases mem_pyreplace _ _ _ _ h5 with h6 | h6
          · rcases mem_pyreplace _ _ _ _ h6 with h7 | h7
            · exact not_mem_pyreplace_single '/' [' '] _ (by decide) h7
            · exact absurd h7 (by decide)
          · exact absurd h6 (by decide)
        · exact absurd h5 (by decide)
      · exact absurd h4 (List.not_mem_nil _)
    · exact absurd h3 (List.not_mem_nil _)
  · exact absurd h2 (by decide)

theorem normStages_no_dash (l : List Char) : '-' ∉ normStages l := by
  intro h
  simp only [normStages] at h
  rcases mem_squash _ _ (mem_pystrip h) with h2 | h2
  · rcases mem_pyreplace _ _ _ _ h2 with h3 | h3
    · rcases mem_pyreplace _ _ _ _ h3 with h4 | h4
      · rcases mem_pyreplace _ _ _ _ h4 with h5 | h5
        · rcases mem_pyreplace _ _ _ _ h5 with h6 | h6
          · exact not_mem_pyreplace_single '-' [' '] _ (by decide) h6
          · exact absurd h6 (by decide)
        · exact absurd h5 (by decide)
      · exact absurd h4 (List.not_mem_nil _)
    · exact absurd h3 (List.not_mem_nil _)
  · exact absurd h2 (by decide)

theorem normStages_not_lower (l : List Char) :
    ∀ c ∈ normStages l, c.toNat < 97 ∨ 122 < c.toNat := by
  intro c h
  simp only [normStages] at h
  rcases mem_squash _ _ (mem_pystrip h) with h2 | h2
  · rcases mem_pyreplace _ _ _ _ h2 with h3 | h3
    · rcases mem_pyreplace _ _ _ _ h3 with h4 | h4
      · rcases mem_pyreplace _ _ _ _ h4 with h5 | h5
        · rcases mem_pyreplace _ _ _ _ h5 with h6 | h6
          · rcases mem_pyreplace _ _ _ _ h6 with h7 | h7
            · rcases mem_pyreplace _ _ _ _ h7 with h8 | h8
              · obtain ⟨d, _, hd⟩ := List.mem_map.mp (mem_pystrip h8)
                exact hd ▸ upChar_not_lower d
              · have : ∀ d ∈ [' '], d.toNat < 97 ∨ 122 < d.toNat := by decide
                exact this c h8
            · have : ∀ d ∈ [' '], d.toNat < 97 ∨ 122 < d.toNat := by decide
              exact this c h7
          · have : ∀ d ∈ "GR".data, d.toNat < 97 ∨ 122 < d.toNat := by decide
            exact this c h6
        · have : ∀ d ∈ "CL".data, d.toNat < 97 ∨ 122 < d.toNat := by decide
          exact this c h5
      · exact absurd h4 (List.not_mem_nil _)
    · exact absurd h3 (List.not_mem_nil _)
  · subst h2
    exact Or.inl (by decide)

theorem normStages_noWsRun (l : List Char) : noWsRun (normStages l) = true := by
  simp only [normStages]
  exact noWsRun_pystrip _ (noWsRun_squash _)

theorem normStages_pystrip (l : List Char) :
    pystrip (normStages l) = normStages l := by
  simp only [normStages]
  exact pystrip_idem _

theorem truthyOpt_none : truthyOpt none = false := rfl

theorem truthyOpt_some (s : String) : truthyOpt (some s) = (s != "") := rfl

theorem check_synonyms_iff (a b : String) :
    check_synonyms a b = true ↔
      ∃ p ∈ MATERIAL_SYNONYMS, normalize a ∈ p.2.map normalize ∧
        normalize b ∈ p.2.map normalize := by
  simp [check_synonyms, List.any_eq_true, List.contains_eq_any_beq,
    Bool.and_eq_true, beq_iff_eq]

theorem check_tokens_iff (a b : String) :
    check_tokens a b = true ↔
      ∃ t ∈ extract_tokens a, t ∈ extract_tokens b := by
  simp [check_tokens, List.any_eq_true, List.contains_eq_any_beq, beq_iff_eq]

/-! ## Claim theorems -/

/-- Claim C10: the two public comparison entry points always agree —
`compare_materials` returns exactly the Boolean component of
`smart_material_match`. -/
theorem compare_materials_agrees (a b : String) :
    compare_materials a b = (smart_material_match a b).1 := rfl

/-- Claim C2 (evaluation at the failing input): contrary to the claim, the
docstring example and the test fixture in `hybrid_compare.py`,
`smart_material_match "ASTM A320 L7M" "ASTM A350 L7M"` returns
`(true, "token")` — the synonym table does not contain `A350 L7M` in the
`L7M` group, and the token step then matches on the shared token `L7M`. -/
theorem smart_material_match_A320_A350 :
    smart_material_match "ASTM A320 L7M" "ASTM A350 L7M" = (true, "token") := by
  decide

/-- Claim C1: the five-step cascade of `smart_material_match`: empty input →
`(false, "empty")`; equal normal forms → `(true, "exact")`; both normal
forms in one synonym entry's normalised variants → `(true, "synonym")`;
overlapping significant-token sets → `(true, "token")`; otherwise
`(false, "none")`. -/
theorem smart_material_match_cases (a b : String) :
    ((a = "" ∨ b = "") → smart_material_match a b = (false, "empty")) ∧
    (¬(a = "" ∨ b = "") → normalize a = normalize b →
      smart_material_match a b = (true, "exact")) ∧
    (¬(a = "" ∨ b = "") → normalize a ≠ normalize b →
      (∃ p ∈ MATERIAL_SYNONYMS, normalize a ∈ p.2.map normalize ∧
        normalize b ∈ p.2.map normalize) →
      smart_material_match a b = (true, "synonym")) ∧
    (¬(a = "" ∨ b = "") → normalize a ≠ normalize b →
      ¬(∃ p ∈ MATERIAL_SYNONYMS, normalize a ∈ p.2.map normalize ∧
        normalize b ∈ p.2.map normalize) →
      (∃ t ∈ extract_tokens a, t ∈ extract_tokens b) →
      smart_material_match a b = (true, "token")) ∧
    (¬(a = "" ∨ b = "") → normalize a ≠ normalize b →
      ¬(∃ p ∈ MATERIAL_SYNONYMS, normalize a ∈ p.2.map normalize ∧
        normalize b ∈ p.2.map normalize) →
      ¬(∃ t ∈ extract_tokens a, t ∈ extract_tokens b) →
      smart_material_match a b = (false, "none")) := by
  refine ⟨?_, ?_, ?_, ?_, ?_⟩
  · intro h
    unfold smart_material_match
    rw [if_pos h]
  · intro h1 h2
    unfold smart_material_match
    rw [if_neg h1, if_pos h2]
  · intro h1 h2 h3
    unfold smart_material_match
    rw [if_neg h1, if_neg h2, if_pos ((check_synonyms_iff a b).mpr h3)]
  · intro h1 h2 h3 h4
    unfold smart_material_match
    rw [if_neg h1, if_neg h2,
      if_neg (fun hc => h3 ((check_synonyms_iff a b).mp hc)),
      if_pos ((check_tokens_iff a b).mpr h4)]
  · intro h1 h2 h3 h4
    unfold smart_material_match
    rw [if_neg h1, if_neg h2,
      if_neg (fun hc => h3 ((check_synonyms_iff a b).mp hc)),
      if_neg (fun hc => h4 ((check_tokens_iff a b).mp hc))]

theorem smart_material_match_cases_witness :
    smart_material_match "ASTM A350 LF2 CL1" "A350 LF2" = (true, "token") := by
  refine (smart_material_match_cases "ASTM A350 LF2 CL1" "A350 LF2").2.2.2.1
    (by decide) (by decide) (by decide) ⟨"A350", by decide, by decide⟩

/-- Claim C9: selecting a sheet index that is not a valid (Python) index into
the workbook's sheet list makes `parse_bom_sheet` fail with the error the
spec's taxonomy calls `ExtractionError` (the embedded `IndexError` of
`wb.worksheets[sheet_index]`). -/
theorem parse_bom_sheet_out_of_range (wb : List BomSheet) (sheet_index : Int)
    (h : sheet_index < -(wb.length : Int) ∨ (wb.length : Int) ≤ sheet_index) :
    parse_bom_sheet wb sheet_index =
      .error (.sheetIndexOutOfRange sheet_index) := by
  unfold parse_bom_sheet
  suffices hn : pyIdx wb sheet_index = none by rw [hn]
  unfold pyIdx
  rcases h with h | h
  · have h0 : ¬(0 ≤ sheet_index) := by omega
    rw [if_neg h0]
    simp only
    rw [if_neg (by omega : ¬(0 ≤ (wb.length : Int) + sheet_index))]
  · have h0 : 0 ≤ sheet_index := by omega
    rw [if_pos h0, List.get?_eq_none.mpr (by omega)]

theorem parse_bom_sheet_out_of_range_witness :
    parse_bom_sheet [] 2 = .error (.sheetIndexOutOfRange 2) :=
  parse_bom_sheet_out_of_range [] 2 (Or.inr (by decide))

/-- Claim C7: the row-continuation rule of the components-sheet scanner.  For
a scanned row (width guard passed) whose name cell is empty in the sense of
the source's test and whose material cell is non-empty: with no component
recorded yet the row is skipped, and with a recorded `last` component the
row only overwrites that component's material with the row's stripped
text. -/
theorem bomStep_continuation (st : BomScan) (r : BomRow)
    (hshort : r.short = false)
    (hname : (truthyOpt r.name && (pystripS (r.name.getD "") != "")) = false)
    (hmt : truthyOpt r.material = true)
    (hms : (pystripS (r.material.getD "") != "") = true) :
    (st.last = none → bomStep st r = st) ∧
    (∀ ln, st.last = some ln → ln ≠ "" →
      (dictLookup st.components ln).isSome = true →
      bomStep st r =
        { st with components :=
            dictSetMat st.components ln (pystripS (r.material.getD "")) }) := by
  constructor
  · intro hl
    unfold bomStep
    simp only [hshort, hname, hl]
    simp [truthyOpt_none]
  · intro ln hl hln hmem
    unfold bomStep
    simp only [hshort, hname, hl]
    simp [truthyOpt_some, hmt, hms, bne_iff_ne, hln, hmem]

theorem bomStep_continuation_witness :
    bomStep ⟨[("Body", ⟨1, "A350"⟩)], some "Body"⟩
        ⟨false, none, none, some " ASTM A350 LF2 CL.1 "⟩ =
      ⟨[("Body", ⟨1, "ASTM A350 LF2 CL.1"⟩)], some "Body"⟩ := by
  have h := (bomStep_continuation ⟨[("Body", ⟨1, "A350"⟩)], some "Body"⟩
      ⟨false, none, none, some " ASTM A350 LF2 CL.1 "⟩ rfl (by decide) (by decide)
      (by decide)).2 "Body" rfl (by decide) (by decide)
  exact h.trans (by decide)

/-! ## Validation gate (C3) -/

/-- Field acceptance by bidirectional substring containment after
quote-stripping and trimming (the claim's rule for all three fields, the
code's rule for SIZE only). -/
def quotePass (x y : Option String) : Bool :=
  inStr (quoteNorm x) (quoteNorm y) || inStr (quoteNorm y) (quoteNorm x)

/-- Field acceptance after trimming only (the code's rule for ASME and
ENDS). -/
def trimPass (x y : Option String) : Bool :=
  inStr (trimNorm x) (trimNorm y) || inStr (trimNorm y) (trimNorm x)

/-- Claim C3 counterexample: with the ASME field `60"0` against `600`, every
field passes under the claim's normalisation (quotes stripped on all three
fields), yet `validate_bom_with_pdf` reports invalid — the code strips
quote characters from the SIZE field only. -/
theorem validate_bom_quotes_counterexample :
    (quotePass (some "X") (some "X") &&
     quotePass (some "60\"0") (some "600") &&
     quotePass (some "Y") (some "Y")) = true ∧
    (validate_bom_with_pdf ⟨some "X", some "60\"0", some "Y", []⟩
        (some "X") (some "600") (some "Y")).valid = false := by
  decide

theorem gateAux (A B : Bool) (m : List String) :
    (if !A && !B then m else []) = (if A || B then [] else m) := by
  cases A <;> cases B <;> simp

/-- The error list of the validation gate, one message per failing
field. -/
theorem validate_errors_eq (bom : BomSheetData)
    (pdf_size pdf_asme pdf_ends : Option String) :
    (validate_bom_with_pdf bom pdf_size pdf_asme pdf_ends).errors =
      (if quotePass bom.size pdf_size then [] else
        ["SIZE не совпадает: BOM=" ++ pyStr bom.size ++ ", PDF=" ++ pyStr pdf_size]) ++
      (if trimPass bom.asme pdf_asme then [] else
        ["ASME не совпадает: BOM=" ++ pyStr bom.asme ++ ", PDF=" ++ pyStr pdf_asme]) ++
      (if trimPass bom.ends pdf_ends then [] else
        ["ENDS не совпадает: BOM=" ++ pyStr bom.ends ++ ", PDF=" ++ pyStr pdf_ends]) := by
  unfold validate_bom_with_pdf quotePass trimPass
  simp only [gateAux]

/-- Claim C3 amended: `validate_bom_with_pdf` normalises SIZE on both sides
by null→`""`, quote-stripping and trimming, but ASME and ENDS by
null→`""` and trimming only; each field is accepted exactly on
bidirectional substring containment of its normalised values, each failing
field appends one mismatch message, `valid` holds iff the error list is
empty, and a field that is empty on both sides passes. -/
theorem validate_bom_characterisation (bom : BomSheetData)
    (pdf_size pdf_asme pdf_ends : Option String) :
    (validate_bom_with_pdf bom pdf_size pdf_asme pdf_ends).valid =
      (quotePass bom.size pdf_size && trimPass bom.asme pdf_asme &&
        trimPass bom.ends pdf_ends) ∧
    ((validate_bom_with_pdf bom pdf_size pdf_asme pdf_ends).valid = true ↔
      (validate_bom_with_pdf bom pdf_size pdf_asme pdf_ends).errors = []) ∧
    (validate_bom_with_pdf bom pdf_size pdf_asme pdf_ends).errors.length =
      ((if quotePass bom.size pdf_size then 0 else 1) +
       (if trimPass bom.asme pdf_asme then 0 else 1) +
       (if trimPass bom.ends pdf_ends then 0 else 1)) ∧
    (quotePass none none = true ∧ trimPass none none = true) := by
  have he := validate_errors_eq bom pdf_size pdf_asme pdf_ends
  have hv : (validate_bom_with_pdf bom pdf_size pdf_asme pdf_ends).valid =
      (validate_bom_with_pdf bom pdf_size pdf_asme pdf_ends).errors.isEmpty := rfl
  refine ⟨?_, ?_, ?_, by decide⟩ <;>
    simp only [hv, he] <;>
      cases hq : quotePass bom.size pdf_size <;>
        cases ha : trimPass bom.asme pdf_asme <;>
          cases hn : trimPass bom.ends pdf_ends <;>
            simp

/-! ## Manager sheet search (C8) -/

theorem mgrRowHit_sub (tsc tac : String) (row : List (Option String))
    (hh : mgrRowHit tsc tac row = true) :
    (inStr tsc (mgrSizeStr (row.getD 8 none)) &&
      inStr tac (mgrClsStr (row.getD 9 none))) = true := by
  simp only [mgrRowHit, Bool.and_eq_true] at hh ⊢
  tauto

theorem managerScan_none (tsc tac : String) (rows : List (List (Option String)))
    (h : rows.all (fun row =>
        !(inStr tsc (mgrSizeStr (row.getD 8 none)) &&
          inStr tac (mgrClsStr (row.getD 9 none)))) = true) :
    ∀ idx, managerScan tsc tac rows idx = none := by
  induction rows with
  | nil => intro idx; rfl
  | cons row rest ih =>
    intro idx
    rw [List.all_cons, Bool.and_eq_true] at h
    show (if mgrRowHit tsc tac row then _ else _) = none
    rw [if_neg ?hneg]
    case hneg =>
      intro hh
      have := mgrRowHit_sub tsc tac row hh
      rw [this] at h
      simp at h
    exact ih h.2 (idx + 1)

/-- Claim C8: when no scanned manager row has both the normalised target size
and the normalised target class as substrings of its own normalised size
and class cells, `parse_manager_sheet` returns the first-class not-found
value (`found = false`) — in the embedding the function is total, so no
exception can escape. -/
theorem parse_manager_sheet_not_found (rows : List (List (Option String)))
    (target_size target_asme : Option String)
    (h : rows.all (fun row =>
        !(inStr (targetSizeClean target_size) (mgrSizeStr (row.getD 8 none)) &&
          inStr (targetClsClean target_asme) (mgrClsStr (row.getD 9 none)))) = true) :
    parse_manager_sheet rows target_size target_asme =
      .notFound ("Не найдена строка с Size=" ++ pyStr target_size ++
        " и Class=" ++ pyStr target_asme) ∧
    (parse_manager_sheet rows target_size target_asme).isFound = false := by
  have hs := managerScan_none _ _ rows h 15
  constructor
  · unfold parse_manager_sheet
    simp only [hs]
  · unfold parse_manager_sheet
    simp only [hs]
    rfl

theorem parse_manager_sheet_not_found_witness :
    parse_manager_sheet [List.replicate 30 (some "10")]
        (some "12\"") (some "600") =
      .notFound "Не найдена строка с Size=12\" и Class=600" := by
  have h := (parse_manager_sheet_not_found [List.replicate 30 (some "10")]
      (some "12\"") (some "600") (by decide)).1
  exact h.trans (by decide)

/-! ## Reconciliation merge (C4, C5) -/

theorem processItem_status (sim : String → String → Nat)
    (bom : List (String × BomComp)) (mgr : List (String × String)) (it : Item)
    (h : descOf it ≠ "") :
    (processItem sim bom mgr it).status =
      some (if bomMatchOf sim bom it || orderMatchOf sim mgr it then "equal"
        else if (bomMaterialOf sim bom it != "") ||
            truthyOpt (orderMaterialRawOf sim mgr it) then "notEqual"
        else "equal") := by
  cases hb : (bomMatchOf sim bom it || orderMatchOf sim mgr it) <;>
    cases hc : ((bomMaterialOf sim bom it != "") ||
        truthyOpt (orderMaterialRawOf sim mgr it)) <;>
      simp [processItem, h, hb, hc]

/-- Claim C4: for every processed drawing component (non-empty stripped
description), the merged status is `"equal"` when the BOM comparison or
the manager comparison succeeded, otherwise `"notEqual"` when at least one
comparison material was present, otherwise `"equal"`. -/
theorem merge_all_data_status (sim : String → String → Nat)
    (bom : List (String × BomComp)) (mgr : List (String × String))
    (pdf : PdfData) (i : Nat) (hi : i < pdf.table2.length)
    (hdesc : descOf (pdf.table2.get ⟨i, hi⟩) ≠ "") :
    ∃ hj : i < (merge_all_data sim pdf bom mgr).table2.length,
      ((merge_all_data sim pdf bom mgr).table2.get ⟨i, hj⟩).status =
        some (if bomMatchOf sim bom (pdf.table2.get ⟨i, hi⟩) ||
              orderMatchOf sim mgr (pdf.table2.get ⟨i, hi⟩) then "equal"
          else if (bomMaterialOf sim bom (pdf.table2.get ⟨i, hi⟩) != "") ||
              truthyOpt (orderMaterialRawOf sim mgr (pdf.table2.get ⟨i, hi⟩)) then
            "notEqual"
          else "equal") := by
  have hj : i < (merge_all_data sim pdf bom mgr).table2.length := by
    simp only [merge_all_data, List.length_append, List.length_map]
    omega
  refine ⟨hj, ?_⟩
  have hget : (merge_all_data sim pdf bom mgr).table2.get ⟨i, hj⟩ =
      processItem sim bom mgr (pdf.table2.get ⟨i, hi⟩) := by
    simp only [merge_all_data, List.get_eq_getElem]
    rw [List.getElem_append_left (by simpa using hi)]
    simp
  rw [hget, processItem_status sim bom mgr _ hdesc]

theorem merge_all_data_status_witness :
    ∃ hj : 0 < (merge_all_data (fun _ _ => 0)
        ⟨[{ pos := some "1", description := some "Body",
            material := some "ASTM A350 LF2 CL1", bom_material := none,
            order_material := none, quantity := none, manager_quantity := none,
            status := none, note := some "" }]⟩ [] []).table2.length,
      ((merge_all_data (fun _ _ => 0)
        ⟨[{ pos := some "1", description := some "Body",
            material := some "ASTM A350 LF2 CL1", bom_material := none,
            order_material := none, quantity := none, manager_quantity := none,
            status := none, note := some "" }]⟩ [] []).table2.get ⟨0, hj⟩).status =
        some "equal" := by
  obtain ⟨hj, hst⟩ := merge_all_data_status (fun _ _ => 0) [] []
    ⟨[{ pos := some "1", description := some "Body",
        material := some "ASTM A350 LF2 CL1", bom_material := none,
        order_material := none, quantity := none, manager_quantity := none,
        status := none, note := some "" }]⟩ 0 (by decide) (by decide)
  exact ⟨hj, hst.trans (by decide)⟩

theorem newItemOf_injective : Function.Injective newItemOf := by
  intro a b h
  simp only [newItemOf, Item.mk.injEq, Option.some.injEq] at h
  obtain ⟨_, h1, h2, _⟩ := h
  exact Prod.ext h1 h2

theorem processItem_shape (sim : String → String → Nat)
    (bom : List (String × BomComp)) (mgr : List (String × String)) (it : Item) :
    processItem sim bom mgr it = it ∨
      (processItem sim bom mgr it).status = some "equal" ∨
      (processItem sim bom mgr it).status = some "notEqual" := by
  by_cases h : descOf it = ""
  · left
    unfold processItem
    rw [if_pos h]
  · right
    rw [processItem_status sim bom mgr it h]
    cases hb : (bomMatchOf sim bom it || orderMatchOf sim mgr it) <;>
      cases hc : ((bomMaterialOf sim bom it != "") ||
          truthyOpt (orderMaterialRawOf sim mgr it)) <;>
        simp [hb, hc]

theorem processItem_status_ne_new (sim : String → String → Nat)
    (bom : List (String × BomComp)) (mgr : List (String × String)) (it : Item)
    (hit : it.status ≠ some "new") :
    (processItem sim bom mgr it).status ≠ some "new" := by
  rcases processItem_shape sim bom mgr it with h | h | h
  · rw [h]; exact hit
  · rw [h]; intro hc; exact absurd (Option.some.inj hc) (by decide)
  · rw [h]; intro hc; exact absurd (Option.some.inj hc) (by decide)

/-- Claim C5: after the merge, every manager category not matched during the
pass appears exactly once as the synthesised record (`status = "new"`,
description the category name, material and order material the manager
material, null BOM material, null quantity, empty position), and every
record whose status is `"new"` carries an order material and no
drawing-sourced position or quantity.  Hypotheses: manager-sheet keys are
distinct (a Python dict guarantees this) and no input drawing item already
carries status `"new"` (drawing extraction output has no status key). -/
theorem merge_all_data_new_records (sim : String → String → Nat)
    (bom : List (String × BomComp)) (mgr : List (String × String))
    (pdf : PdfData)
    (hkeys : (mgr.map Prod.fst).Nodup)
    (hstat : ∀ it ∈ pdf.table2, it.status ≠ some "new") :
    (∀ p ∈ mgr, p.1 ∉ pdf.table2.filterMap (usedColOf sim mgr) →
      ((merge_all_data sim pdf bom mgr).table2.count (newItemOf p)) = 1) ∧
    (∀ r ∈ (merge_all_data sim pdf bom mgr).table2, r.status = some "new" →
      r.pos = some "" ∧ r.quantity = none ∧ r.bom_material = none ∧
      ∃ c m, (c, m) ∈ mgr ∧ r.description = some c ∧ r.material = some m ∧
        r.order_material = some m) := by
  have hproc : ∀ it ∈ pdf.table2,
      (processItem sim bom mgr it).status ≠ some "new" := fun it h =>
    processItem_status_ne_new sim bom mgr it (hstat it h)
  constructor
  · intro p hp hunused
    simp only [merge_all_data, List.count_append]
    have h0 : (pdf.table2.map (processItem sim bom mgr)).count (newItemOf p) = 0 := by
      rw [List.count_eq_zero]
      intro hmem
      obtain ⟨it, hit, heq⟩ := List.mem_map.mp hmem
      exact hproc it hit (by rw [heq]; rfl)
    rw [h0]
    have hcont : (pdf.table2.filterMap (usedColOf sim mgr)).contains p.1 = false := by
      rw [Bool.eq_false_iff]
      intro hc
      obtain ⟨b, hb, he⟩ := List.contains_iff_exists_mem_beq.mp hc
      rw [beq_iff_eq] at he
      exact hunused (he ▸ hb)
    have hfil : p ∈ mgr.filter
        (fun q => !((pdf.table2.filterMap (usedColOf sim mgr)).contains q.1)) := by
      rw [List.mem_filter]
      exact ⟨hp, by rw [hcont]; rfl⟩
    have hnodup : ((mgr.filter
        (fun q => !((pdf.table2.filterMap (usedColOf sim mgr)).contains q.1))).map
          newItemOf).Nodup := by
      refine List.Nodup.map newItemOf_injective ?_
      refine List.Nodup.of_map Prod.fst ?_
      exact ((List.filter_sublist _).map Prod.fst).nodup hkeys
    rw [List.count_eq_one_of_mem hnodup (List.mem_map_of_mem _ hfil)]
  · intro r hr hnew
    simp only [merge_all_data] at hr
    rw [List.mem_append] at hr
    rcases hr with hr | hr
    · obtain ⟨it, hit, heq⟩ := List.mem_map.mp hr
      exact absurd (heq ▸ hnew) (hproc it hit)
    · obtain ⟨q, hq, heq⟩ := List.mem_map.mp hr
      have hqm : q ∈ mgr := List.mem_of_mem_filter hq
      refine ⟨?_, ?_, ?_, q.1, q.2, hqm, ?_, ?_, ?_⟩ <;> rw [← heq] <;> rfl

theorem merge_all_data_new_records_witness :
    ((merge_all_data (fun _ _ => 0) ⟨[]⟩ [] [("Gland", "A479 S20910")]).table2.count
      (newItemOf ("Gland", "A479 S20910"))) = 1 := by
  have h := (merge_all_data_new_records (fun _ _ => 0) [] [("Gland", "A479 S20910")]
      ⟨[]⟩ (by decide) (by intro it hit; cases hit)).1
  exact h ("Gland", "A479 S20910") (by decide) (by decide)

/-! ## Normalisation idempotence (C6) -/

/-- Claim C6 counterexample: `normalize` is not idempotent.  The pass output
can still contain a rewritable fragment: `normalize "GR.." = "GR."` (the
replace consumed `GR.` and the leftover dot recreated it), and a second
pass rewrites it further to `"GR"`. -/
theorem normalize_not_idempotent :
    normalize "GR.." = "GR." ∧ normalize "GR." = "GR" ∧
      normalize (normalize "GR..") ≠ normalize "GR.." := by
  decide

/-- Claim C6 amended: `normalize` is idempotent at every string whose first
normalisation no longer contains one of the rewritable fragments `GR.`,
`CL.`, `ASTM ` and `ASME ` (the only way a pass output can change again —
slashes, hyphens, lowercase letters and uncollapsed whitespace never
survive a pass). -/
theorem normalize_idempotent_cond (x : String)
    (h1 : occursIn "GR.".data (normalize x).data = false)
    (h2 : occursIn "CL.".data (normalize x).data = false)
    (h3 : occursIn "ASTM ".data (normalize x).data = false)
    (h4 : occursIn "ASME ".data (normalize x).data = false) :
    normalize (normalize x) = normalize x := by
  by_cases hx : x = ""
  · subst hx; rfl
  · by_cases hy : normalize x = ""
    · rw [hy]; rfl
    · have hdata : (normalize x).data = normStages x.data := by
        unfold normalize
        rw [if_neg hx]
      have hNL : ∀ c ∈ (normalize x).data, c.toNat < 97 ∨ 122 < c.toNat := by
        rw [hdata]; exact normStages_not_lower x.data
      have hsl : '/' ∉ (normalize x).data := by
        rw [hdata]; exact normStages_no_slash x.data
      have hda : '-' ∉ (normalize x).data := by
        rw [hdata]; exact normStages_no_dash x.data
      have hws : noWsRun (normalize x).data = true := by
        rw [hdata]; exact normStages_noWsRun x.data
      have hst : pystrip (normalize x).data = (normalize x).data := by
        rw [hdata]; exact normStages_pystrip x.data
      have key : normStages (normalize x).data = (normalize x).data := by
        simp only [normStages]
        rw [map_upChar_id _ hNL, hst]
        rw [pyreplace_not_occurs _ _ _ (not_occurs_single _ _ hsl)]
        rw [pyreplace_not_occurs _ _ _ (not_occurs_single _ _ hda)]
        rw [pyreplace_not_occurs _ _ _ h1, pyreplace_not_occurs _ _ _ h2,
          pyreplace_not_occurs _ _ _ h3, pyreplace_not_occurs _ _ _ h4]
        rw [squash_id _ hws]
        exact hst
      rw [normalize, if_neg hy, key]

theorem normalize_idempotent_cond_witness :
    normalize (normalize "ASTM A350 LF2") = normalize "ASTM A350 LF2" :=
  normalize_idempotent_cond "ASTM A350 LF2" (by decide) (by decide) (by decide)
    (by decide)

end PdfParser
